import Mathlib

/-! Verification of the amaranth-soc CSR register core (csr/reg.py and
csr/field.py): a shallow embedding of the field-type algebra, the
FieldMap/FieldArray composition and the Register construction and
elaboration logic, together with theorems checking the natural-language
specification of the repository against this embedding. -/

set_option autoImplicit false

namespace AmaranthSoc

/-- Field and register access mode: the string enum shared by
FieldPort.Access (csr/reg.py) and Element.Access, one of r, w, rw. -/
inductive Access where
  | R
  | W
  | RW
deriving DecidableEq

/-- FieldPort.Access.readable from csr/reg.py: true for R and RW. -/
def Access.readable : Access → Bool
  | .R => true
  | .W => false
  | .RW => true

/-- FieldPort.Access.writable from csr/reg.py: true for W and RW. -/
def Access.writable : Access → Bool
  | .R => false
  | .W => true
  | .RW => true

/-- Next value of one RW1C storage bit, from RW1C.elaborate (csr/field.py
lines 64-78): for bit i the loop emits a conditional clear under
w_stb and w_data i, followed by a conditional set under the set input
bit; when both conditions hold the later synchronous assignment wins. -/
def rw1cNextBit (wStb wData setBit s : Bool) : Bool :=
  if setBit then true else if wStb && wData then false else s

/-- Value of an LSB-first list of bits. -/
def bitsToNat : List Bool → Nat
  | [] => 0
  | b :: rest => (if b then 1 else 0) + 2 * bitsToNat rest

/-- Next value of the whole RW1C storage word of the given width, applying
the per-bit rule of RW1C.elaborate to every bit. -/
def rw1cNext (width : Nat) (wStb : Bool) (wData setVal storage : Nat) : Nat :=
  bitsToNat ((List.range width).map (fun i =>
    rw1cNextBit wStb (Nat.testBit wData i) (Nat.testBit setVal i) (Nat.testBit storage i)))

/-- Per-bit OR-combine arbitration rule as written in the specification:
the next bit is the OR of each enabled side's proposed next value. -/
def orCombineNextBit (iwe inext lwe lnext : Bool) : Bool :=
  (iwe && inext) || (lwe && lnext)

/-- Python-level view of a constructed field instance for the
reset-attribute claims: its access mode, the reset value passed to the
storage Signal when the constructor builds one, and the value held by the
private reset attribute when the constructor assigns it. A none in the
last component models an AttributeError on reading the reset property,
or the absence of such a property. -/
structure PyField where
  access : Access
  storageReset : Option Nat
  resetAttr : Option Nat
deriving DecidableEq

/-- R.__init__ (csr/field.py lines 9-11): access r, no storage cell and no
reset attribute of any kind. -/
def R.init (shape : Nat) : PyField :=
  { access := .R, storageReset := none, resetAttr := none }

/-- W.__init__ (csr/field.py lines 19-21): access w, no storage cell and no
reset attribute of any kind. -/
def W.init (shape : Nat) : PyField :=
  { access := .W, storageReset := none, resetAttr := none }

/-- RW.__init__ (csr/field.py lines 29-37): stores the reset value both in
the storage Signal and in the private attribute read by the reset
property. -/
def RW.init (shape reset : Nat) : PyField :=
  { access := .RW, storageReset := some reset, resetAttr := some reset }

/-- RW1C.__init__ (csr/field.py lines 53-62): stores the reset value both
in the storage Signal and in the private attribute read by the reset
property. -/
def RW1C.init (shape reset : Nat) : PyField :=
  { access := .RW, storageReset := some reset, resetAttr := some reset }

/-- RW1S.__init__ (csr/field.py lines 81-89): stores the reset value in the
storage Signal only; the private attribute read by the reset property is
never assigned, so reading the property raises AttributeError. -/
def RW1S.init (shape reset : Nat) : PyField :=
  { access := .RW, storageReset := some reset, resetAttr := none }

/-- Bus-facing strobes of the register Element during one cycle. -/
structure ElemStrobes where
  rStb : Bool
  wStb : Bool
deriving DecidableEq

/-- Field-port strobes produced by Register.elaborate for one leaf field. -/
structure PortStrobes where
  rStb : Bool
  wStb : Bool
deriving DecidableEq

/-- Strobe wiring of Register.elaborate (csr/reg.py lines 371-380): a
readable field receives port.r_stb combinationally from element.r_stb and
a writable field receives port.w_stb combinationally from element.w_stb;
a strobe of the other kind is never driven and keeps the combinational
default of 0. -/
def fieldStrobes (access : Access) (e : ElemStrobes) : PortStrobes :=
  { rStb := if access.readable then e.rStb else false,
    wStb := if access.writable then e.wStb else false }

/-- Cycle-wise application of the purely combinational strobe wiring to a
trace of bus-facing strobes: the port strobes in cycle t depend only on
the element strobes in cycle t. -/
def fieldStrobesTrace (access : Access) (e : Nat → ElemStrobes) (t : Nat) : PortStrobes :=
  fieldStrobes access (e t)

/-- Bus strobe trace asserting a single write strobe in cycle 0 and never
asserting the read strobe. -/
def writeThenIdle : Nat → ElemStrobes :=
  fun t => { rStb := false, wStb := t == 0 }

/-- Bus strobe trace asserting a single read strobe in cycle 0. -/
def readAtZero : Nat → ElemStrobes :=
  fun t => { rStb := t == 0, wStb := false }

/-- One leaf field as seen by the read-data loop of Register.elaborate: its
width, its access mode, and the value its port.r_data signal carries in
the current cycle. -/
structure ReadLeaf where
  width : Nat
  access : Access
  rData : Nat
deriving DecidableEq

/-- Read-data loop of Register.elaborate (csr/reg.py lines 361-384):
walking the flattened fields with a running bit offset, each readable
field drives element.r_data at its slice with its port.r_data value;
every other bit keeps the combinational default of 0. -/
def busRDataAux : List ReadLeaf → Nat → Nat → Nat
  | [], _, acc => acc
  | f :: rest, start, acc =>
      busRDataAux rest (start + f.width)
        (if f.access.readable then acc + f.rData % 2 ^ f.width * 2 ^ start else acc)

/-- Aggregate bus read data driven by Register.elaborate, starting at
offset 0 with all bits at their default of 0. -/
def busRData (fs : List ReadLeaf) : Nat :=
  busRDataAux fs 0 0

/-- Specification-side read value: the concatenation, low bits first, of
each readable leaf field's read data, with zeros in the place of fields
that are not initiator-readable. -/
def concatRData : List ReadLeaf → Nat
  | [] => 0
  | f :: rest =>
      (if f.access.readable then f.rData % 2 ^ f.width else 0) + 2 ^ f.width * concatRData rest

/-- Key of one step along a field path: a FieldMap name or a FieldArray
index. -/
inductive PathKey where
  | str (s : String)
  | idx (i : Nat)
deriving DecidableEq

mutual
/-- Field tree bound to a Register: a leaf Field with a shape width and an
access mode, a FieldMap of named children, or a FieldArray repeating one
shared child a fixed number of times. -/
inductive FieldTree where
  | leaf (width : Nat) (access : Access)
  | fmap (children : FieldList)
  | farray (child : FieldTree) (length : Nat)
/-- Ordered children of a FieldMap, mirroring the insertion-ordered dict
built by FieldMap.__init__. -/
inductive FieldList where
  | nil
  | cons (key : String) (child : FieldTree) (rest : FieldList)
end

/-- One flattened leaf: the path of keys from the root, the leaf width and
the leaf access mode. -/
structure FlatLeaf where
  path : List PathKey
  width : Nat
  access : Access
deriving DecidableEq

/-- Path prefixing of a flattened leaf by an enclosing key, as in the
(key, *sub_name) tuples yielded by FieldMap.flatten and
FieldArray.flatten. -/
def addKey (k : PathKey) (f : FlatLeaf) : FlatLeaf :=
  { f with path := k :: f.path }

/-- FieldArray.flatten (csr/reg.py lines 263-280): the flattening of the
single child is replayed once per index 0, ..., length-1, each copy
prefixed with its index. -/
def arrayCopies (sub : List FlatLeaf) (n : Nat) : List FlatLeaf :=
  ((List.range n).map (fun i => sub.map (addKey (.idx i)))).flatten

mutual
/-- FieldMap.flatten and FieldArray.flatten (csr/reg.py lines 193-210 and
263-280): depth-first enumeration of the leaves in declaration order,
with every path prefixed by the keys walked to reach it. -/
def flattenTree : FieldTree → List FlatLeaf
  | .leaf w a => [⟨[], w, a⟩]
  | .fmap cs => flattenList cs
  | .farray t n => arrayCopies (flattenTree t) n
/-- Flattening of the children of a FieldMap in declaration order. -/
def flattenList : FieldList → List FlatLeaf
  | .nil => []
  | .cons k t rest => (flattenTree t).map (addKey (.str k)) ++ flattenList rest
end

mutual
/-- Structural width of a field tree as the specification describes it:
the leaf width, the sum over the children of a map, and the child width
multiplied by the length for an array. -/
def treeWidth : FieldTree → Nat
  | .leaf w _ => w
  | .fmap cs => listWidth cs
  | .farray t n => n * treeWidth t
/-- Sum of the structural widths of the children of a map. -/
def listWidth : FieldList → Nat
  | .nil => 0
  | .cons _ t rest => treeWidth t + listWidth rest
end

/-- Sum of the widths of a list of flattened leaves. -/
def widthSum : List FlatLeaf → Nat
  | [] => 0
  | f :: rest => f.width + widthSum rest

/-- Width computed by Register.__init__ (csr/reg.py lines 332-334): a fold
over the flattened fields accumulating each leaf width. -/
def regWidth (t : FieldTree) : Nat :=
  (flattenTree t).foldl (fun acc f => acc + f.width) 0

/-- Offset assignment of Register.elaborate (csr/reg.py lines 364-382): the
running field_start variable gives each leaf, in flatten order, the slice
from start to start + width. -/
def offsetsAux : List FlatLeaf → Nat → List (Nat × Nat)
  | [], _ => []
  | f :: rest, start => (start, f.width) :: offsetsAux rest (start + f.width)

/-- Specification-side layout check: the first slice starts at the given
position and every later slice starts exactly where the previous one
ended, leaving no gaps and never reordering. -/
def contiguousFrom : Nat → List (Nat × Nat) → Bool
  | _, [] => true
  | s, (start, w) :: rest => (start == s) && contiguousFrom (s + w) rest

/-- Construction-time ValueError of Register.__init__: a leaf field whose
access mode exceeds the declared register access mode, carrying the path
of the offending field. -/
inductive RegisterError where
  | fieldReadable (path : List PathKey)
  | fieldWritable (path : List PathKey)
deriving DecidableEq

/-- Discriminator for the ok case of an Except value. -/
def exceptIsOk {ε α : Type} : Except ε α → Bool
  | .ok _ => true
  | .error _ => false

/-- Access-mode validation loop of Register.__init__ (csr/reg.py lines
333-340): for each flattened field in order, a readable field with a
non-readable register access raises first, then a writable field with a
non-writable register access raises. -/
def registerInitCheck (access : Access) : List FlatLeaf → Except RegisterError Unit
  | [] => .ok ()
  | f :: rest =>
      if f.access.readable && !access.readable then .error (.fieldReadable f.path)
      else if f.access.writable && !access.writable then .error (.fieldWritable f.path)
      else registerInitCheck access rest

/-- Modelled from the spec: the bus Element (csr/bus.py, absent from the
sources) is the bus-facing interface record of a register; per the
specification of the register bus-facing interface it carries the
aggregate width and the access mode it is constructed with, which
Register.__init__ passes as Element(width, access). -/
structure Element where
  width : Nat
  access : Access
deriving DecidableEq

/-- Register.__init__ (csr/reg.py lines 315-343): validate every flattened
field against the declared access mode, then build the bus Element from
the summed width and the declared access mode. -/
def registerInit (access : Access) (t : FieldTree) : Except RegisterError Element :=
  match registerInitCheck access (flattenTree t) with
  | .error e => .error e
  | .ok _ => .ok { width := regWidth t, access := access }

/-- Access-mode subset relation as worded by the specification: an R field
fits a readable register, a W field fits a writable register, and an RW
field needs a register that is both. -/
def specAccessSubset : Access → Access → Bool
  | .R, .R => true
  | .R, .RW => true
  | .W, .W => true
  | .W, .RW => true
  | .RW, .RW => true
  | _, _ => false

/-- Field tree holding a single write-only leaf of width 1. -/
def wOnlyTree : FieldTree :=
  .fmap (.cons "a" (.leaf 1 .W) .nil)

/-- Field tree holding a single read-write leaf of width 3. -/
def rwTree : FieldTree :=
  .fmap (.cons "b" (.leaf 3 .RW) .nil)

/-- Lookup in an insertion-ordered dict, first matching key winning; the
keys of a FieldMap are unique because they come from a Python dict.
Field values are abstracted to object identifiers, matching the identity
comparison of Field instances, which define no equality of their own. -/
def dictLookup : List (String × Nat) → String → Option Nat
  | [], _ => none
  | p :: rest, key => if p.1 = key then some p.2 else dictLookup rest key

/-- FieldMap equality: FieldMap (csr/reg.py lines 115-210) defines no
equality of its own, so the Mapping abstract base class applies, which
compares dict(self) with dict(other): the same key set with the same
value at each key, irrespective of insertion order. -/
def dictEqB (a b : List (String × Nat)) : Bool :=
  (a.all (fun p => dictLookup b p.1 == some p.2)) &&
  (b.all (fun p => dictLookup a p.1 == some p.2))

/-- A constructed FieldArray for the equality and indexing claims: the
single shared child, abstracted to an object identifier, and the length,
positive by construction. -/
structure FieldArray where
  field : Nat
  length : Nat
deriving DecidableEq

/-- Sequence view of a FieldArray: iteration yields the one shared child at
each of the length indices, as list(self) does on the Sequence base
class over FieldArray.__getitem__ and FieldArray.__len__. -/
def fieldArrayList (a : FieldArray) : List Nat :=
  List.replicate a.length a.field

/-- FieldArray.__eq__ (csr/reg.py lines 282-283): the other object is a
FieldArray and list(self) equals list(other). -/
def fieldArrayEqB (a b : FieldArray) : Bool :=
  fieldArrayList a == fieldArrayList b

/-- A Python value handed to FieldMap.__init__ as a child: either a proper
Field, FieldMap or FieldArray instance, abstracted to an object
identifier, or an object of any other type. -/
inductive PyVal where
  | field (id : Nat)
  | other
deriving DecidableEq

/-- Construction-time TypeErrors of FieldMap.__init__ (csr/reg.py lines
122-136): not a non-empty mapping, a name that is not a non-empty
string, or a child that is not a Field, FieldMap or FieldArray. -/
inductive FieldMapError where
  | notAMapping
  | badName
  | badField
deriving DecidableEq

/-- Python dict insertion: assigning to an existing key replaces its value
in place, a new key is appended at the end. -/
def dictInsert : List (String × PyVal) → String → PyVal → List (String × PyVal)
  | [], k, v => [(k, v)]
  | p :: rest, k, v => if p.1 = k then (p.1, v) :: rest else p :: dictInsert rest k v

/-- Loop of FieldMap.__init__ over the items of the supplied mapping:
reject an empty name, reject a child of the wrong type, and otherwise
insert the pair into the private dict. -/
def fieldMapInitGo : List (String × PyVal) → List (String × PyVal) →
    Except FieldMapError (List (String × PyVal))
  | [], acc => .ok acc
  | (k, f) :: rest, acc =>
      if k = "" then .error .badName
      else
        match f with
        | .other => .error .badField
        | .field i => fieldMapInitGo rest (dictInsert acc k (.field i))

/-- FieldMap.__init__ (csr/reg.py lines 122-136) applied to the item
sequence of the supplied mapping: an empty sequence is rejected as not a
non-empty mapping, then the items are validated and inserted one by
one. -/
def fieldMapInit (items : List (String × PyVal)) :
    Except FieldMapError (List (String × PyVal)) :=
  if items.length = 0 then .error .notAMapping
  else fieldMapInitGo items []

/-- A Python key handed to FieldArray.__getitem__: an int, or an object of
any other type. -/
inductive PyKey where
  | int (i : Int)
  | other
deriving DecidableEq

/-- Errors raised by FieldArray.__getitem__. -/
inductive IndexingError where
  | indexError
  | typeError
deriving DecidableEq

/-- FieldArray.__getitem__ (csr/reg.py lines 239-258): an int key belonging
to range(-length, length) returns the one shared child; an int outside
that range raises IndexError; a key of any other type raises
TypeError. -/
def FieldArray.getitem (a : FieldArray) (key : PyKey) : Except IndexingError Nat :=
  match key with
  | .int i =>
      if -(a.length : Int) ≤ i ∧ i < (a.length : Int) then .ok a.field
      else .error .indexError
  | .other => .error .typeError

theorem busRDataAux_concat (fs : List ReadLeaf) :
    ∀ start acc, busRDataAux fs start acc = acc + 2 ^ start * concatRData fs := by
  induction fs with
  | nil => intro start acc; simp [busRDataAux, concatRData]
  | cons f rest ih =>
      intro start acc
      cases hb : f.access.readable <;>
        · simp [busRDataAux, concatRData, hb, ih, pow_add]
          try ring

/-- C1: an RW1C field whose storage holds 0b111, with the bus writing 0b111
under an asserted write strobe while the logic side asserts its set input
at 0b001, steps to 0b001 on the next clock edge, and on each of the three
bits this agrees with the OR-combine rule of the specification, taking
the RW1C initiator transform s AND NOT d and the logic transform
s OR d with the logic write mask and data both 0b001. -/
theorem C1_rw1c_concurrent_write :
    rw1cNext 3 true 7 1 7 = 1 ∧
    ((List.range 3).all (fun i =>
        rw1cNextBit true (Nat.testBit 7 i) (Nat.testBit 1 i) (Nat.testBit 7 i)
          == orCombineNextBit true (Nat.testBit 7 i && !(Nat.testBit 7 i))
               (Nat.testBit 1 i) (Nat.testBit 7 i || Nat.testBit 1 i))) = true := by
  decide

/-- C2 counterexample: in the writeThenIdle trace the bus write strobe is
asserted in cycle 0, yet one cycle later the port read strobe of a
readable field is low, because the wiring is combinational from the bus
read strobe; and in the readAtZero trace the port read strobe is high in
the very cycle the bus read strobe is, contradicting the claim that it is
never asserted combinationally together with a bus strobe. -/
theorem C2_counterexample :
    (fieldStrobesTrace .RW writeThenIdle 1).rStb = false ∧
    (fieldStrobesTrace .RW readAtZero 0).rStb = true := by
  constructor <;> rfl

/-- C2 amended: the port read strobe of a field is purely combinational,
equal in every cycle to the bus read strobe for a readable field and
constantly 0 for a non-readable field; it is not delayed and does not
depend on the bus write strobe at all. -/
theorem C2_read_strobe_wiring (access : Access) (e : Nat → ElemStrobes) (t : Nat) :
    (fieldStrobesTrace access e t).rStb = (access.readable && (e t).rStb) := by
  cases access <;> simp [fieldStrobesTrace, fieldStrobes, Access.readable]

/-- C3: the aggregate bus read data produced by the read-data loop of
Register.elaborate equals the concatenation, at each leaf offset, of the
readable fields' read data, with zeros in the slices of fields that are
not initiator-readable. -/
theorem C3_bus_read_data (fs : List ReadLeaf) :
    busRData fs = concatRData fs := by
  simpa using busRDataAux_concat fs 0 0

/-- C7 counterexample: reading the reset attribute of a freshly constructed
RW1S field fails, because RW1S.__init__ never assigns the private
attribute its reset property returns, and an R field has no reset
attribute at all; so not every successfully constructed field exposes a
readable reset attribute. -/
theorem C7_counterexample :
    (RW1S.init 3 0).resetAttr = none ∧ (R.init 1).resetAttr = none := by
  constructor <;> rfl

/-- C7 amended: RW and RW1C fields expose a reset attribute equal to the
reset supplied at construction; R and W fields accept no reset value and
expose no reset attribute; RW1S passes the reset to its storage Signal
but never assigns the private attribute behind its reset property, so
reading reset on an RW1S field fails instead of returning an integer. -/
theorem C7_reset_attribute (s r : Nat) :
    (RW.init s r).resetAttr = some r ∧
    (RW1C.init s r).resetAttr = some r ∧
    (RW1S.init s r).resetAttr = none ∧
    (RW1S.init s r).storageReset = some r ∧
    (R.init s).resetAttr = none ∧
    (W.init s).resetAttr = none := by
  exact ⟨rfl, rfl, rfl, rfl, rfl, rfl⟩

theorem widthSum_append (a b : List FlatLeaf) :
    widthSum (a ++ b) = widthSum a + widthSum b := by
  induction a with
  | nil => simp [widthSum]
  | cons f rest ih => simp [widthSum, ih, Nat.add_assoc]

theorem widthSum_map_addKey (k : PathKey) (l : List FlatLeaf) :
    widthSum (l.map (addKey k)) = widthSum l := by
  induction l with
  | nil => rfl
  | cons f rest ih => simp [widthSum, addKey, ih]

theorem widthSum_arrayCopies (sub : List FlatLeaf) (n : Nat) :
    widthSum (arrayCopies sub n) = n * widthSum sub := by
  induction n with
  | zero => simp [arrayCopies, widthSum]
  | succ m ih =>
      rw [arrayCopies, List.range_succ, List.map_append, List.flatten_append]
      rw [widthSum_append]
      rw [show ((List.map (fun i => sub.map (addKey (.idx i))) (List.range m))).flatten
            = arrayCopies sub m from rfl]
      simp [widthSum_map_addKey, widthSum_append, ih, Nat.succ_mul]

mutual
theorem widthSum_flattenTree (t : FieldTree) :
    widthSum (flattenTree t) = treeWidth t := by
  cases t with
  | leaf w a => simp [flattenTree, widthSum, treeWidth]
  | fmap cs =>
      rw [show flattenTree (.fmap cs) = flattenList cs from rfl,
          show treeWidth (.fmap cs) = listWidth cs from rfl]
      exact widthSum_flattenList cs
  | farray t n =>
      rw [show flattenTree (.farray t n) = arrayCopies (flattenTree t) n from rfl,
          show treeWidth (.farray t n) = n * treeWidth t from rfl]
      rw [widthSum_arrayCopies, widthSum_flattenTree t]
theorem widthSum_flattenList (cs : FieldList) :
    widthSum (flattenList cs) = listWidth cs := by
  cases cs with
  | nil => rfl
  | cons k t rest =>
      rw [show flattenList (.cons k t rest)
            = (flattenTree t).map (addKey (.str k)) ++ flattenList rest from rfl,
          show listWidth (.cons k t rest) = treeWidth t + listWidth rest from rfl]
      rw [widthSum_append, widthSum_map_addKey, widthSum_flattenTree t,
          widthSum_flattenList rest]
end

theorem foldl_add_width (l : List FlatLeaf) :
    ∀ a : Nat, l.foldl (fun acc f => acc + f.width) a = a + widthSum l := by
  induction l with
  | nil => intro a; simp [widthSum]
  | cons f rest ih => intro a; simp [widthSum, ih, Nat.add_assoc]

theorem contiguousFrom_offsetsAux (l : List FlatLeaf) :
    ∀ s, contiguousFrom s (offsetsAux l s) = true := by
  induction l with
  | nil => intro s; rfl
  | cons f rest ih => intro s; simp [offsetsAux, contiguousFrom, ih]

/-- C4: the register width computed by Register.__init__ is the sum of the
widths of the recursively flattened leaves and equals the structural
width of the whole field tree, and the slices assigned by
Register.elaborate, following the flattened depth-first declaration
order, start at bit 0 and are contiguous: every later leaf starts
exactly where the previous one ended, with no gaps and no reordering. -/
theorem C4_width_and_layout (t : FieldTree) :
    regWidth t = widthSum (flattenTree t) ∧
    regWidth t = treeWidth t ∧
    contiguousFrom 0 (offsetsAux (flattenTree t) 0) = true := by
  refine ⟨?_, ?_, contiguousFrom_offsetsAux (flattenTree t) 0⟩
  · simpa using foldl_add_width (flattenTree t) 0
  · rw [regWidth]
    rw [foldl_add_width (flattenTree t) 0]
    simpa using widthSum_flattenTree t

theorem registerInitCheck_isOk (access : Access) (leaves : List FlatLeaf) :
    exceptIsOk (registerInitCheck access leaves)
      = leaves.all (fun f => specAccessSubset f.access access) := by
  induction leaves with
  | nil => rfl
  | cons f rest ih =>
      cases hf : f.access <;> cases ha : access <;>
        simp_all [registerInitCheck, specAccessSubset, Access.readable,
                  Access.writable, exceptIsOk]

/-- C5: constructing a Register fails with a construction-time error
exactly when some flattened leaf field has an access mode that is not a
subset of the declared register access mode, and succeeds whenever every
leaf access mode is a subset of the register access mode. -/
theorem C5_access_validation (access : Access) (t : FieldTree) :
    exceptIsOk (registerInit access t)
      = (flattenTree t).all (fun f => specAccessSubset f.access access) := by
  rw [← registerInitCheck_isOk access (flattenTree t), registerInit]
  cases registerInitCheck access (flattenTree t) <;> rfl

theorem registerInitCheck_ok_subset (access : Access) (leaves : List FlatLeaf)
    (h : exceptIsOk (registerInitCheck access leaves) = true) :
    ∀ f ∈ leaves, specAccessSubset f.access access = true := by
  rw [registerInitCheck_isOk] at h
  intro f hf
  exact List.all_eq_true.mp h f hf

theorem specAccessSubset_readable {f a : Access}
    (h : specAccessSubset f a = true) (hr : f.readable = true) :
    a.readable = true := by
  cases f <;> cases a <;> simp_all [specAccessSubset, Access.readable]

theorem specAccessSubset_writable {f a : Access}
    (h : specAccessSubset f a = true) (hw : f.writable = true) :
    a.writable = true := by
  cases f <;> cases a <;> simp_all [specAccessSubset, Access.writable]

/-- C6 counterexample: a register declared rw over a single write-only
field is constructed successfully, its bus Element reports the readable
flag as true, yet no leaf field is initiator-readable; so the aggregate
flags are not derived from the fields and the claimed equivalence fails
in the only-if direction. -/
theorem C6_counterexample :
    registerInit .RW wOnlyTree = .ok { width := 1, access := .RW } ∧
    Access.readable .RW = true ∧
    (flattenTree wOnlyTree).any (fun f => f.access.readable) = false :=
  ⟨rfl, rfl, rfl⟩

/-- C6 amended: the bus-facing access flags of a register are exactly its
declared access mode, not an aggregate derived from the fields; when at
least one leaf field is initiator-readable a successfully constructed
register is necessarily bus-readable, and likewise for writable, but the
converse implications do not hold. -/
theorem C6_flags_are_declared_access (access : Access) (t : FieldTree) (e : Element)
    (h : registerInit access t = .ok e) :
    e.access = access ∧
    ((flattenTree t).any (fun f => f.access.readable) = true → e.access.readable = true) ∧
    ((flattenTree t).any (fun f => f.access.writable) = true → e.access.writable = true) := by
  rw [registerInit] at h
  cases hc : registerInitCheck access (flattenTree t) with
  | error err => rw [hc] at h; cases h
  | ok u =>
      rw [hc] at h
      have he : e = { width := regWidth t, access := access } := by
        cases h; rfl
      subst he
      have hok : exceptIsOk (registerInitCheck access (flattenTree t)) = true := by
        rw [hc]; rfl
      have hsub := registerInitCheck_ok_subset access (flattenTree t) hok
      refine ⟨rfl, ?_, ?_⟩
      · intro hr
        obtain ⟨f, hf, hfr⟩ := List.any_eq_true.mp hr
        exact specAccessSubset_readable (hsub f hf) hfr
      · intro hw
        obtain ⟨f, hf, hfw⟩ := List.any_eq_true.mp hw
        exact specAccessSubset_writable (hsub f hf) hfw

/-- C6 witness: the amended theorem applied to a register declared rw over
one readable read-write field of width 3. -/
theorem C6_witness :
    (Element.mk 3 Access.RW).access.readable = true :=
  (C6_flags_are_declared_access .RW rwTree { width := 3, access := .RW }
    (by rfl)).2.1 (by rfl)

theorem mem_of_dictLookup {l : List (String × Nat)} {k : String} {v : Nat}
    (h : dictLookup l k = some v) : (k, v) ∈ l := by
  induction l with
  | nil => cases h
  | cons p rest ih =>
      cases p with
      | mk pk pv =>
          by_cases hk : pk = k
          · rw [dictLookup] at h
            simp only [hk, if_pos rfl] at h
            cases h
            exact hk ▸ List.mem_cons_self _ _
          · rw [dictLookup, if_neg hk] at h
            exact List.mem_cons_of_mem _ (ih h)

theorem dictLookup_of_mem {l : List (String × Nat)}
    (hn : (l.map Prod.fst).Nodup) {k : String} {v : Nat}
    (h : (k, v) ∈ l) : dictLookup l k = some v := by
  induction l with
  | nil => cases h
  | cons p rest ih =>
      rw [List.map_cons, List.nodup_cons] at hn
      cases h with
      | head => simp [dictLookup]
      | tail _ hmem =>
          by_cases hk : p.1 = k
          · exact absurd (hk ▸ List.mem_map_of_mem Prod.fst hmem) hn.1
          · rw [dictLookup, if_neg hk]
            exact ih hn.2 hmem

theorem dictLookup_eq_none {l : List (String × Nat)} {k : String}
    (h : dictLookup l k = none) : k ∉ l.map Prod.fst := by
  induction l with
  | nil => simp
  | cons p rest ih =>
      by_cases hk : p.1 = k
      · rw [dictLookup, if_pos hk] at h; cases h
      · rw [dictLookup, if_neg hk] at h
        simp only [List.map_cons, List.mem_cons]
        rintro (rfl | hmem)
        · exact hk rfl
        · exact ih h hmem

theorem dictEqB_iff (a b : List (String × Nat))
    (ha : (a.map Prod.fst).Nodup) (hb : (b.map Prod.fst).Nodup) :
    dictEqB a b = true ↔ ∀ k, dictLookup a k = dictLookup b k := by
  constructor
  · intro h k
    rw [dictEqB, Bool.and_eq_true, List.all_eq_true, List.all_eq_true] at h
    obtain ⟨h1, h2⟩ := h
    cases hak : dictLookup a k with
    | some v =>
        have hmem := mem_of_dictLookup hak
        have := h1 (k, v) hmem
        rw [beq_iff_eq] at this
        exact this.symm
    | none =>
        cases hbk : dictLookup b k with
        | none => rfl
        | some w =>
            have hmem := mem_of_dictLookup hbk
            have := h2 (k, w) hmem
            rw [beq_iff_eq] at this
            rw [this] at hak
            cases hak
  · intro h
    rw [dictEqB, Bool.and_eq_true, List.all_eq_true, List.all_eq_true]
    constructor
    · intro p hp
      rw [beq_iff_eq, ← h p.1]
      exact dictLookup_of_mem ha hp
    · intro p hp
      rw [beq_iff_eq, h p.1]
      exact dictLookup_of_mem hb hp

theorem fieldArrayEqB_iff (x y : FieldArray)
    (hx : 0 < x.length) (hy : 0 < y.length) :
    fieldArrayEqB x y = true ↔ (x.field = y.field ∧ x.length = y.length) := by
  rw [fieldArrayEqB, beq_iff_eq, fieldArrayList, fieldArrayList]
  constructor
  · intro h
    have hlen : x.length = y.length := by
      have := congrArg List.length h
      simpa using this
    refine ⟨?_, hlen⟩
    cases hx' : x.length with
    | zero => omega
    | succ m =>
        have hy' : y.length = m + 1 := by omega
        rw [hx', hy', List.replicate_succ, List.replicate_succ] at h
        injection h with h1 _
  · rintro ⟨hf, hl⟩
    rw [hf, hl]

/-- C8 counterexample: two field maps holding the same two name-to-field
bindings in opposite insertion orders compare equal under the Mapping
dict comparison the code inherits, although their (name, field)
sequences are not identical in the same order; so FieldMap equality is
not the claimed order-sensitive sequence equality. -/
theorem C8_counterexample :
    dictEqB [("a", 0), ("b", 1)] [("b", 1), ("a", 0)] = true ∧
    ("a", (0 : Nat)) :: [("b", 1)] ≠ ("b", (1 : Nat)) :: [("a", 0)] := by
  constructor
  · rfl
  · decide

/-- C8 amended: two FieldMaps are equal exactly when they bind the same
keys to the same fields, irrespective of insertion order, since the
inherited Mapping equality compares them as dicts; two FieldArrays are
equal exactly when they have the same element field and the same
length. -/
theorem C8_equality_semantics :
    (∀ a b : List (String × Nat), (a.map Prod.fst).Nodup → (b.map Prod.fst).Nodup →
        (dictEqB a b = true ↔ ∀ k, dictLookup a k = dictLookup b k)) ∧
    (∀ x y : FieldArray, 0 < x.length → 0 < y.length →
        (fieldArrayEqB x y = true ↔ (x.field = y.field ∧ x.length = y.length))) :=
  ⟨dictEqB_iff, fieldArrayEqB_iff⟩

/-- C8 witness: the amended characterization applied to a concrete
one-entry field map compared with itself and to a concrete two-element
field array compared with itself. -/
theorem C8_witness :
    dictEqB [("a", 0)] [("a", 0)] = true ∧ fieldArrayEqB ⟨5, 2⟩ ⟨5, 2⟩ = true :=
  ⟨(C8_equality_semantics.1 [("a", 0)] [("a", 0)] (by simp) (by simp)).mpr
      (fun k => rfl),
   (C8_equality_semantics.2 ⟨5, 2⟩ ⟨5, 2⟩ (by decide) (by decide)).mpr ⟨rfl, rfl⟩⟩

/-- C9 counterexample: handing FieldMap.__init__ an item sequence with the
key a bound twice raises no error at all; the second binding silently
replaces the first in the underlying dict and construction succeeds. -/
theorem C9_counterexample :
    fieldMapInit [("a", .field 0), ("a", .field 1)] = .ok [("a", PyVal.field 1)] := by
  rfl

/-- C9 amended: a FieldMap cannot reject duplicate keys because its input
is a mapping, in which duplicates have already collapsed; feeding the
constructor an item sequence that repeats a non-empty key succeeds, with
the last binding for the key winning, and the only construction-time
errors are an empty or non-mapping input, an empty name and a child of
the wrong type. -/
theorem C9_duplicate_key_collapses (k : String) (v0 v1 : Nat) (h : k ≠ "") :
    fieldMapInit [(k, .field v0), (k, .field v1)] = .ok [(k, PyVal.field v1)] := by
  simp [fieldMapInit, fieldMapInitGo, dictInsert, h]

/-- C9 witness: the amended theorem applied to the key x bound first to
field 0 and then to field 7. -/
theorem C9_witness :
    fieldMapInit [("x", .field 0), ("x", .field 7)] = .ok [("x", PyVal.field 7)] :=
  C9_duplicate_key_collapses "x" 0 7 (by decide)

/-- C10: indexing a FieldArray of positive length with any int in
range(-length, length) returns the single shared child, the same object
whichever valid index is used, negative or not; an int outside that
range raises IndexError; a non-int key raises TypeError. -/
theorem C10_getitem_shared_child (a : FieldArray) (i : Int)
    (hlo : -(a.length : Int) ≤ i) (hhi : i < (a.length : Int)) :
    a.getitem (.int i) = .ok a.field ∧
    (∀ j : Int, ((a.length : Int) ≤ j ∨ j < -(a.length : Int)) →
        a.getitem (.int j) = .error .indexError) ∧
    a.getitem .other = .error .typeError := by
  refine ⟨?_, ?_, rfl⟩
  · rw [FieldArray.getitem, if_pos ⟨hlo, hhi⟩]
  · intro j hj
    rw [FieldArray.getitem, if_neg (by omega)]

/-- C10 witness: the theorem applied to a field array of length 3 around
the shared child 7, indexed with the valid negative index -3, the
out-of-range index 3 and a non-int key. -/
theorem C10_witness :
    FieldArray.getitem ⟨7, 3⟩ (.int (-3)) = .ok 7 ∧
    FieldArray.getitem ⟨7, 3⟩ (.int 3) = .error .indexError ∧
    FieldArray.getitem ⟨7, 3⟩ .other = .error .typeError := by
  have h := C10_getitem_shared_child ⟨7, 3⟩ (-3) (by decide) (by decide)
  exact ⟨h.1, h.2.1 3 (by decide), h.2.2⟩

end AmaranthSoc
